import Mathlib

/-!
# Verification of the beyondjs render/event core (`src/main.py`)

Shallow embedding of the virtual-node tree model, the serializer
(`serialize` / `to_dict` / `to_html_attributes` / `to_html_events` /
`generate_unique_key`), the `PythonHTML` node builders (`h.form`,
`h.input`), the `beyond` re-render decorator, the `Router` and the
per-connection websocket dispatch loop.

Python dictionaries are modelled as insertion-ordered association
lists with unique keys (`dictInsert` replaces in place, as CPython
`dict.__setitem__` does).  The randomness of `uuid4().hex` is made
explicit: every operation that draws a token receives a draw stream
`keys : Nat → String` together with a cursor into it.
-/

namespace Beyond

/-- An attribute value: Python strings, or a callback object (opaque,
of type `β`). -/
inductive Attr (β : Type) where
  | str : String → Attr β
  | cb : β → Attr β
deriving DecidableEq, Repr

/-- A Python dict as an insertion-ordered association list. -/
abbrev Dict (β : Type) := List (String × β)

/-- CPython `d[k] = v`: replace in place when the key is present,
append otherwise. -/
def dictInsert (d : Dict β) (k : String) (v : β) : Dict β :=
  if d.any (fun p => p.1 = k) then
    d.map (fun p => if p.1 = k then (k, v) else p)
  else d ++ [(k, v)]

/-- CPython `d.update(**kwargs)`: repeated `dictInsert` in order. -/
def dictUpdate (d : Dict β) (kwargs : Dict β) : Dict β :=
  kwargs.foldl (fun acc p => dictInsert acc p.1 p.2) d

/-- CPython `k in d`. -/
def dictMem (d : Dict β) (k : String) : Bool :=
  d.any (fun p => p.1 = k)

/-- CPython `d[k]`, raising `KeyError` when absent (`Option.none`). -/
def dictGet (d : Dict β) (k : String) : Option β :=
  (d.find? (fun p => p.1 = k)).map Prod.snd

/-- A `Node` (class `Node` in `main.py`): tag, attribute dict, ordered
children; text/number leaves are primitives. -/
inductive Node (β : Type) where
  | text : String → Node β
  | num : Int → Node β
  | elem : String → Dict (Attr β) → List (Node β) → Node β

/-- The serialized wire form (`to_dict` output): primitive, or a map
with `tag`, `attributes`, an `on` table (emitted only when non-empty)
and `children`. -/
inductive Wire (β : Type) where
  | text : String → Wire β
  | num : Int → Wire β
  | elem : String → Dict (Attr β) → Dict String → List (Wire β) → Wire β

/-- Function `generate_unique_key(dictionary)` of `main.py`: draw one token (`draw` models
the value of `uuid4().hex`); return it when it is not already a key of
`dictionary`, otherwise raise `BeyondException` at once. -/
def generate_unique_key (draw : String) (dictionary : Dict β) :
    Except String String :=
  if dictMem dictionary draw then
    Except.error "Seems like the dictionary is full"
  else Except.ok draw

/-- Python `s.startswith('on_')`: the first three characters are
`o`, `n`, `_`. -/
def startswith_on (s : String) : Bool :=
  s.data.take 3 == "on_".data

/-- Inner generator `to_html_attributes` of `serialize`: drop `on_*` keys, rename `Class`/`For`,
pass everything else through. -/
def to_html_attributes (attributes : Dict (Attr β)) : Dict (Attr β) :=
  attributes.filterMap (fun p =>
    if startswith_on p.1 then none
    else if p.1 = "Class" then some ("class", p.2)
    else if p.1 = "For" then some ("for", p.2)
    else some p)

/-- Inner generator `to_html_events` of `serialize`: keep `on_*` keys, strip the prefix. -/
def to_html_events (attributes : Dict (Attr β)) : Dict (Attr β) :=
  attributes.filterMap (fun p =>
    if startswith_on p.1 then some (p.1.drop 3, p.2) else none)

/-- State threaded through `to_dict`: the accumulating `events` dict
and the cursor into the draw stream. -/
structure SerSt (β : Type) where
  events : Dict β
  cursor : Nat
deriving DecidableEq, Repr

/-- The `for event, callback in to_html_events(...)` loop body of
`to_dict`: mint a key for each event-bound attribute, record
`events[key] = callback`, collect `on[event] = key`. -/
def mintEvents (keys : Nat → String) :
    Dict (Attr β) → SerSt (Attr β) →
    Except String (Dict String × SerSt (Attr β))
  | [], st => Except.ok ([], st)
  | (event, callback) :: rest, st =>
    match generate_unique_key (keys st.cursor) st.events with
    | Except.error e => Except.error e
    | Except.ok key =>
      match mintEvents keys rest
          ⟨dictInsert st.events key callback, st.cursor + 1⟩ with
      | Except.error e => Except.error e
      | Except.ok (onTbl, st'') => Except.ok ((event, key) :: onTbl, st'')

mutual

/-- Inner function `to_dict(node)` of `serialize`: recursively convert a node to its wire form,
accumulating the `events` dict on the side. -/
def to_dict (keys : Nat → String) :
    Node β → SerSt (Attr β) → Except String (Wire β × SerSt (Attr β))
  | Node.text s, st => Except.ok (Wire.text s, st)
  | Node.num i, st => Except.ok (Wire.num i, st)
  | Node.elem tag attrs children, st =>
    match mintEvents keys (to_html_events attrs) st with
    | Except.error e => Except.error e
    | Except.ok (onTbl, st') =>
      match to_dict_children keys children st' with
      | Except.error e => Except.error e
      | Except.ok (ws, st'') =>
        Except.ok (Wire.elem tag (to_html_attributes attrs) onTbl ws, st'')

/-- The `[to_dict(child) for child in node._children]` comprehension. -/
def to_dict_children (keys : Nat → String) :
    List (Node β) → SerSt (Attr β) →
    Except String (List (Wire β) × SerSt (Attr β))
  | [], st => Except.ok ([], st)
  | c :: cs, st =>
    match to_dict keys c st with
    | Except.error e => Except.error e
    | Except.ok (w, st') =>
      match to_dict_children keys cs st' with
      | Except.error e => Except.error e
      | Except.ok (ws, st'') => Except.ok (w :: ws, st'')

end

/-- Function `serialize(node)` of `main.py`: run `to_dict` from the empty events dict;
returns the wire tree and the events dict. -/
def serialize (keys : Nat → String) (node : Node β) :
    Except String (Wire β × Dict (Attr β)) :=
  match to_dict keys node ⟨[], 0⟩ with
  | Except.error e => Except.error e
  | Except.ok (w, st) => Except.ok (w, st.events)


/-- Attribute dict of a node (`node._attributes`; primitives have none). -/
def Node.attrs {β : Type} : Node β → Dict (Attr β)
  | Node.text _ => []
  | Node.num _ => []
  | Node.elem _ a _ => a

/-- Tag of a node (`node._tag`; primitives have none). -/
def Node.tag {β : Type} : Node β → String
  | Node.text _ => ""
  | Node.num _ => ""
  | Node.elem t _ _ => t

/-- Attribute dict of a wire node. -/
def Wire.attrs {β : Type} : Wire β → Dict (Attr β)
  | Wire.text _ => []
  | Wire.num _ => []
  | Wire.elem _ a _ _ => a

/-- Builder for a generic tag: `h.<tag>(**kwargs)[children]`
(`PythonHTML.__getattr__` makes `Node(tag)`, `Node.__call__` merges
`kwargs` into the empty attribute dict, `Node.__getitem__` appends the
children in order). -/
def hTag {β : Type} (tag : String) (kwargs : Dict (Attr β))
    (children : List (Node β)) : Node β :=
  Node.elem tag (dictUpdate [] kwargs) children

namespace PythonHTML

/-- Method `PythonHTML.form`: make a `form` node, set
`_attributes['onsubmit'] = 'return false;'`, then merge the caller's
`kwargs` over it. -/
def form {β : Type} (kwargs : Dict (Attr β)) : Node β :=
  Node.elem "form"
    (dictUpdate (dictInsert [] "onsubmit" (Attr.str "return false;")) kwargs)
    []

/-- Method `PythonHTML.input`: when `kwargs.get('type') == 'text'` the
tag is `'input#' + uuid4().hex` (the draw is the `draw` argument) and a
warning is logged when the caller passed an `id` (second component of
the result); otherwise the tag is plain `input`.  In both branches the
caller's `kwargs` are merged into the attribute dict unconditionally. -/
def input {β : Type} (draw : String) (kwargs : Dict (Attr β)) :
    Node β × Bool :=
  match dictGet kwargs "type" with
  | some (Attr.str "text") =>
    (Node.elem ("input#" ++ draw) (dictUpdate [] kwargs) [],
      dictMem kwargs "id")
  | _ => (Node.elem "input" (dictUpdate [] kwargs) [], false)

end PythonHTML

/-- Backend event (`class Event`): message type, path and payload.
The `request` / `websocket` fields carry the per-connection state; in
this embedding that state is the explicit `Conn` value threaded through
the dispatch functions. -/
structure EventData where
  type : String
  path : String
  payload : Dict String
deriving DecidableEq, Repr

/-- An application event handler: receives the event and the
application model (`event.request.model`), returns the new model or
raises (the error also carries the model at raise time, since Python
side effects performed before the raise persist). -/
abbrev HandlerFn (α : Type) := EventData → α → Except (String × α) α

/-- A callback value bound to an `on_*` attribute: either a plain
`async` handler, or a handler wrapped by the `beyond` decorator.  The
wrapper's body (lines 174-189 of `main.py`) is interpreted by
`runCallback` / `beyondWrapper` below. -/
inductive Callback (α : Type) where
  | plain : HandlerFn α → Callback α
  | wrapped : HandlerFn α → Callback α

/-- A route (`Route = namedtuple('Route', ('regex', 'init', 'render'))`).
The compiled regex is modelled by its matching function `pattern`,
returning `match.groups()` on success; `init` mutates the model,
`render` builds the html tree from the model. -/
structure Route (α : Type) where
  pattern : String → Option (List String)
  init : List String → EventData → α → α
  render : List String → EventData → α → Node (Callback α)

/-- Method `Router.__call__`: walk `self._routes` in registration
order; on the first route whose regex matches `event.path`, run its
`init` (only for `init` events) and return its `render` output
together with the (possibly updated) model; when no route matches,
return `h.h1()['No route found']`. -/
def routerCall {α : Type} : List (Route α) → EventData → α →
    α × Node (Callback α)
  | [], _, m => (m, Node.elem "h1" [] [Node.text "No route found"])
  | r :: rest, ev, m =>
    match r.pattern ev.path with
    | some args =>
      let m' := if ev.type = "init" then r.init args ev m else m
      (m', r.render args ev m')
    | none => routerCall rest ev m

/-- Method `Router.add_route`: compile and append (registration
order is list order). -/
def add_route {α : Type} (routes : List (Route α)) (r : Route α) :
    List (Route α) :=
  routes ++ [r]

/-- Per-connection state: the application model
(`event.request.model`), the event table (`websocket.events`), the
ordered list of `{"html": ...}` messages pushed so far
(`websocket.send_str`), and the cursor into the `uuid4` draw stream. -/
structure Conn (α : Type) where
  model : α
  events : Dict (Attr (Callback α))
  sent : List (Wire (Callback α))
  cursor : Nat

/-- Body of the `beyond` decorator's `wrapper` (lines 174-189): run the
handler; on success render the current path through the router
(`event.request.app.render(event)`), serialize, replace
`event.websocket.events` with the fresh table, and push one
`{"html": ...}` message.  A handler exception propagates before any of
that happens; a serialization error propagates after the model update
but before the table replacement and the push. -/
def beyondWrapper {α : Type} (keys : Nat → String) (routes : List (Route α))
    (h : HandlerFn α) (ev : EventData) (c : Conn α) :
    Except (String × Conn α) (Conn α) :=
  match h ev c.model with
  | Except.error (e, m') => Except.error (e, { c with model := m' })
  | Except.ok m1 =>
    let pr := routerCall routes ev m1
    match to_dict keys pr.2 ⟨[], c.cursor⟩ with
    | Except.error e => Except.error (e, { c with model := pr.1 })
    | Except.ok (w, st) =>
      Except.ok ⟨pr.1, st.events, c.sent ++ [w], st.cursor⟩

/-- Semantics of `await callback(event)` for a value taken from the
event table: a non-callable raises `TypeError`; a plain handler only
updates the model; a `beyond`-wrapped handler runs the wrapper body. -/
def runCallback {α : Type} (keys : Nat → String) (routes : List (Route α))
    (cbv : Attr (Callback α)) (ev : EventData) (c : Conn α) :
    Except (String × Conn α) (Conn α) :=
  match cbv with
  | Attr.str _ => Except.error ("TypeError: str object is not callable", c)
  | Attr.cb (Callback.plain h) =>
    match h ev c.model with
    | Except.error (e, m') => Except.error (e, { c with model := m' })
    | Except.ok m' => Except.ok { c with model := m' }
  | Attr.cb (Callback.wrapped h) => beyondWrapper keys routes h ev c

/-- A parsed client TEXT frame. -/
inductive ClientMsg where
  | init : String → ClientMsg
  | domEvent : String → String → Dict String → ClientMsg
  | other : String → ClientMsg

/-- One iteration of the `async for msg in websocket` loop of the
`websocket` handler for a TEXT frame (lines 219-253 of `main.py`):

* `init`: render through the router (running the route's init), 
  serialize, replace the event table, push one `{"html": ...}` message;
* `dom-event`: look the key up in the current table
  (`websocket.events[key]`, `KeyError` on a miss, before any callback
  runs), `await callback(event)`, then unconditionally render again,
  serialize, replace the event table and push one more message;
* any other message type raises `NotImplementedError`. -/
def handleMessage {α : Type} (keys : Nat → String)
    (routes : List (Route α)) (msg : ClientMsg) (c : Conn α) :
    Except (String × Conn α) (Conn α) :=
  match msg with
  | ClientMsg.init path =>
    let ev : EventData := ⟨"init", path, []⟩
    let pr := routerCall routes ev c.model
    match to_dict keys pr.2 ⟨[], c.cursor⟩ with
    | Except.error e => Except.error (e, { c with model := pr.1 })
    | Except.ok (w, st) =>
      Except.ok ⟨pr.1, st.events, c.sent ++ [w], st.cursor⟩
  | ClientMsg.domEvent path key payload =>
    let ev : EventData := ⟨"dom-event", path, payload⟩
    match dictGet c.events key with
    | none => Except.error ("KeyError: " ++ key, c)
    | some cbv =>
      match runCallback keys routes cbv ev c with
      | Except.error ec => Except.error ec
      | Except.ok c1 =>
        let pr := routerCall routes ev c1.model
        match to_dict keys pr.2 ⟨[], c1.cursor⟩ with
        | Except.error e => Except.error (e, { c1 with model := pr.1 })
        | Except.ok (w, st) =>
          Except.ok ⟨pr.1, st.events, c1.sent ++ [w], st.cursor⟩
  | ClientMsg.other t =>
    Except.error ("msg type is not supported yet: " ++ t, c)


mutual

/-- Number of event-bound attributes (keys starting with `on_`) in a
tree, counted across all nodes. -/
def eventCount {β : Type} : Node β → Nat
  | Node.text _ => 0
  | Node.num _ => 0
  | Node.elem _ attrs cs =>
    (attrs.filter (fun p => startswith_on p.1)).length +
      eventCountList cs

def eventCountList {β : Type} : List (Node β) → Nat
  | [] => 0
  | c :: cs => eventCount c + eventCountList cs

end

mutual

/-- Callback values bound to `on_*` attributes, in the traversal order
of `to_dict` (a node's own events first, then its children in order). -/
def boundCallbacks {β : Type} : Node β → List (Attr β)
  | Node.text _ => []
  | Node.num _ => []
  | Node.elem _ attrs cs =>
    (attrs.filter (fun p => startswith_on p.1)).map Prod.snd ++
      boundCallbacksList cs

def boundCallbacksList {β : Type} : List (Node β) → List (Attr β)
  | [] => []
  | c :: cs => boundCallbacks c ++ boundCallbacksList cs

end

mutual

/-- Check that no attribute key anywhere in a wire tree starts with
`on_`. -/
def wireNoOn {β : Type} : Wire β → Bool
  | Wire.text _ => true
  | Wire.num _ => true
  | Wire.elem _ attrs _ cs =>
    attrs.all (fun p => !(startswith_on p.1)) && wireNoOnList cs

def wireNoOnList {β : Type} : List (Wire β) → Bool
  | [] => true
  | w :: ws => wireNoOn w && wireNoOnList ws

end

mutual

/-- Structural equality of wire trees up to the generated event-key
tokens: same tags, same attribute dicts, same children shape, and `on`
tables with the same event names in the same order (the minted keys may
differ). -/
def sameShape {β : Type} [DecidableEq β] : Wire β → Wire β → Bool
  | Wire.text s1, Wire.text s2 => s1 == s2
  | Wire.num n1, Wire.num n2 => n1 == n2
  | Wire.elem t1 a1 o1 c1, Wire.elem t2 a2 o2 c2 =>
    t1 == t2 && a1 == a2 && (o1.map Prod.fst == o2.map Prod.fst) &&
      sameShapeList c1 c2
  | _, _ => false

def sameShapeList {β : Type} [DecidableEq β] :
    List (Wire β) → List (Wire β) → Bool
  | [], [] => true
  | w1 :: ws1, w2 :: ws2 => sameShape w1 w2 && sameShapeList ws1 ws2
  | _, _ => false

end

section DictLemmas

variable {β : Type}

theorem dictGet_nil (k : String) : dictGet ([] : Dict β) k = none := rfl

theorem dictGet_cons (p : String × β) (d : Dict β) (k : String) :
    dictGet (p :: d) k = if p.1 = k then some p.2 else dictGet d k := by
  unfold dictGet
  rw [List.find?_cons]
  by_cases hp : p.1 = k <;> simp [hp]

theorem dictMem_nil (k : String) : dictMem ([] : Dict β) k = false := rfl

theorem dictMem_cons (p : String × β) (d : Dict β) (k : String) :
    dictMem (p :: d) k = (decide (p.1 = k) || dictMem d k) := by
  simp [dictMem, List.any_cons]

theorem dictMem_eq_false_iff (d : Dict β) (k : String) :
    dictMem d k = false ↔ dictGet d k = none := by
  induction d with
  | nil => simp [dictMem_nil, dictGet_nil]
  | cons p rest ih =>
    rw [dictMem_cons, dictGet_cons]
    by_cases hp : p.1 = k <;> simp [hp, ih]

theorem dictMem_iff (d : Dict β) (k : String) :
    dictMem d k = true ↔ k ∈ d.map Prod.fst := by
  induction d with
  | nil => simp [dictMem_nil]
  | cons p rest ih =>
    rw [dictMem_cons, List.map_cons, List.mem_cons]
    constructor
    · intro h
      rcases Bool.or_eq_true_iff.1 h with h1 | h1
      · exact Or.inl (of_decide_eq_true h1).symm
      · exact Or.inr (ih.1 h1)
    · intro h
      rcases h with h1 | h1
      · exact Bool.or_eq_true_iff.2 (Or.inl (decide_eq_true h1.symm))
      · exact Bool.or_eq_true_iff.2 (Or.inr (ih.2 h1))

theorem dictGet_map_ne (d : Dict β) (k0 k : String) (v : β)
    (hk : k ≠ k0) :
    dictGet (d.map (fun p => if p.1 = k0 then (k0, v) else p)) k =
      dictGet d k := by
  induction d with
  | nil => rfl
  | cons p rest ih =>
    by_cases hp : p.1 = k0
    · rw [List.map_cons, if_pos hp, dictGet_cons, dictGet_cons,
        if_neg (fun h => hk h.symm),
        if_neg (by rw [hp]; exact fun h => hk h.symm)]
      exact ih
    · rw [List.map_cons, if_neg hp, dictGet_cons, dictGet_cons]
      by_cases hpk : p.1 = k
      · rw [if_pos hpk, if_pos hpk]
      · rw [if_neg hpk, if_neg hpk]
        exact ih

theorem dictGet_map_self (d : Dict β) (k : String) (v : β)
    (hmem : dictMem d k = true) :
    dictGet (d.map (fun p => if p.1 = k then (k, v) else p)) k =
      some v := by
  induction d with
  | nil => simp [dictMem_nil] at hmem
  | cons p rest ih =>
    by_cases hp : p.1 = k
    · rw [List.map_cons, if_pos hp, dictGet_cons, if_pos rfl]
    · rw [List.map_cons, if_neg hp, dictGet_cons, if_neg hp]
      rw [dictMem_cons] at hmem
      have hrest : dictMem rest k = true := by
        rcases Bool.or_eq_true_iff.1 hmem with h | h
        · exact absurd (of_decide_eq_true h) hp
        · exact h
      exact ih hrest

theorem dictGet_append_single_none (d : Dict β) (k0 k : String) (v : β)
    (h : dictGet d k = none) :
    dictGet (d ++ [(k0, v)]) k = if k0 = k then some v else none := by
  induction d with
  | nil =>
    rw [List.nil_append, dictGet_cons, dictGet_nil]
  | cons p rest ih =>
    rw [dictGet_cons] at h
    by_cases hp : p.1 = k
    · rw [if_pos hp] at h
      exact absurd h (by simp)
    · rw [if_neg hp] at h
      rw [List.cons_append, dictGet_cons, if_neg hp]
      exact ih h

theorem dictGet_append_single_some (d : Dict β) (k0 k : String)
    (v w : β) (h : dictGet d k = some w) :
    dictGet (d ++ [(k0, v)]) k = some w := by
  induction d with
  | nil => exact absurd h (by simp [dictGet_nil])
  | cons p rest ih =>
    rw [dictGet_cons] at h
    rw [List.cons_append, dictGet_cons]
    by_cases hp : p.1 = k
    · rw [if_pos hp] at h ⊢
      exact h
    · rw [if_neg hp] at h ⊢
      exact ih h

theorem dictGet_dictInsert (d : Dict β) (k0 k : String) (v : β) :
    dictGet (dictInsert d k0 v) k =
      if k = k0 then some v else dictGet d k := by
  unfold dictInsert
  have hcond : (d.any fun p => decide (p.1 = k0)) = dictMem d k0 := rfl
  rw [hcond]
  by_cases hmem : dictMem d k0 = true
  · rw [if_pos hmem]
    by_cases hk : k = k0
    · subst hk
      rw [if_pos rfl]
      exact dictGet_map_self d k v hmem
    · rw [if_neg hk]
      exact dictGet_map_ne d k0 k v hk
  · have hmem' : dictMem d k0 = false := by
      simpa using hmem
    rw [if_neg hmem]
    have hnone : dictGet d k0 = none := (dictMem_eq_false_iff d k0).1 hmem'
    by_cases hk : k = k0
    · subst hk
      rw [if_pos rfl, dictGet_append_single_none d k k v hnone, if_pos rfl]
    · rw [if_neg hk]
      cases hdk : dictGet d k with
      | none =>
        rw [dictGet_append_single_none d k0 k v hdk,
          if_neg (fun h => hk h.symm)]
      | some w =>
        rw [dictGet_append_single_some d k0 k v w hdk]

theorem dictGet_dictUpdate_not_mem (d kw : Dict β) (k : String)
    (h : dictMem kw k = false) :
    dictGet (dictUpdate d kw) k = dictGet d k := by
  induction kw generalizing d with
  | nil => rfl
  | cons p rest ih =>
    rw [dictMem_cons] at h
    have hp : ¬ (p.1 = k) := by
      intro he
      simp [he] at h
    have hrest : dictMem rest k = false := by
      rcases Bool.or_eq_false_iff.1 h with ⟨_, h2⟩
      exact h2
    show dictGet (dictUpdate (dictInsert d p.1 p.2) rest) k = dictGet d k
    rw [ih (dictInsert d p.1 p.2) hrest, dictGet_dictInsert,
      if_neg (fun he => hp he.symm)]

theorem dictGet_dictUpdate_mem (d kw : Dict β) (k : String) (v : β)
    (hnodup : (kw.map Prod.fst).Nodup) (h : dictGet kw k = some v) :
    dictGet (dictUpdate d kw) k = some v := by
  induction kw generalizing d with
  | nil => exact absurd h (by simp [dictGet_nil])
  | cons p rest ih =>
    rw [dictGet_cons] at h
    rw [List.map_cons, List.nodup_cons] at hnodup
    show dictGet (dictUpdate (dictInsert d p.1 p.2) rest) k = some v
    by_cases hp : p.1 = k
    · rw [if_pos hp] at h
      have hrest : dictMem rest k = false := by
        cases hmem : dictMem rest k
        · rfl
        · exact absurd ((dictMem_iff rest k).1 hmem) (hp ▸ hnodup.1)
      rw [dictGet_dictUpdate_not_mem _ _ _ hrest, dictGet_dictInsert,
        if_pos hp.symm]
      exact h
    · rw [if_neg hp] at h
      exact ih _ hnodup.2 h

theorem dictInsert_fresh (d : Dict β) (k : String) (v : β)
    (h : dictMem d k = false) : dictInsert d k v = d ++ [(k, v)] := by
  unfold dictInsert
  have hcond : (d.any fun p => decide (p.1 = k)) = dictMem d k := rfl
  rw [hcond, h]
  simp

end DictLemmas


section SerializerLemmas

variable {β : Type}

theorem generate_unique_key_ok (draw : String) (d : Dict β) (key : String)
    (h : generate_unique_key draw d = Except.ok key) :
    key = draw ∧ dictMem d draw = false := by
  unfold generate_unique_key at h
  by_cases hm : dictMem d draw = true
  · rw [if_pos hm] at h
    exact absurd h (by simp)
  · rw [if_neg hm] at h
    simp at h
    exact ⟨h.symm, by simpa using hm⟩

theorem to_html_events_map_snd (attrs : Dict (Attr β)) :
    (to_html_events attrs).map Prod.snd =
      (attrs.filter (fun p => startswith_on p.1)).map Prod.snd := by
  induction attrs with
  | nil => rfl
  | cons p rest ih =>
    unfold to_html_events at *
    rw [List.filterMap_cons, List.filter_cons]
    cases hp : startswith_on p.1
    · simp only [Bool.false_eq_true, if_false]
      rw [ih]
    · simp only [if_true, List.map_cons]
      rw [ih]

theorem to_html_events_length (attrs : Dict (Attr β)) :
    (to_html_events attrs).length =
      (attrs.filter (fun p => startswith_on p.1)).length := by
  have h := to_html_events_map_snd attrs
  have h1 := congrArg List.length h
  simpa using h1

theorem mintEvents_spec (keys : Nat → String) :
    ∀ (evs : Dict (Attr β)) (st : SerSt (Attr β)) onTbl st',
      mintEvents keys evs st = Except.ok (onTbl, st') →
      st'.events.map Prod.snd =
        st.events.map Prod.snd ++ evs.map Prod.snd ∧
      st'.events.length = st.events.length + evs.length ∧
      ((st.events.map Prod.fst).Nodup → (st'.events.map Prod.fst).Nodup) ∧
      onTbl.map Prod.fst = evs.map Prod.fst := by
  intro evs
  induction evs with
  | nil =>
    intro st onTbl st' h
    simp [mintEvents] at h
    obtain ⟨h1, h2⟩ := h
    subst h1
    subst h2
    simp
  | cons p rest ih =>
    intro st onTbl st' h
    obtain ⟨event, callback⟩ := p
    rw [mintEvents] at h
    cases hg : generate_unique_key (keys st.cursor) st.events with
    | error e =>
      rw [hg] at h
      exact absurd h (by simp)
    | ok key =>
      rw [hg] at h
      dsimp only at h
      obtain ⟨hkey, hfresh⟩ := generate_unique_key_ok _ _ _ hg
      cases hm : mintEvents keys rest
          ⟨dictInsert st.events key callback, st.cursor + 1⟩ with
      | error e =>
        rw [hm] at h
        exact absurd h (by simp)
      | ok pr =>
        obtain ⟨onT, st''⟩ := pr
        rw [hm] at h
        simp only [Except.ok.injEq, Prod.mk.injEq] at h
        obtain ⟨h1, h2⟩ := h
        subst h2
        obtain ⟨ihs, ihl, ihn, iho⟩ := ih _ _ _ hm
        have hfresh' : dictMem st.events key = false := by
          rw [hkey]
          exact hfresh
        have hins : dictInsert st.events key callback =
            st.events ++ [(key, callback)] :=
          dictInsert_fresh _ _ _ hfresh'
        rw [hins] at ihs ihl ihn
        simp only [List.map_append, List.length_append] at ihs ihl ihn
        refine ⟨?_, ?_, ?_, ?_⟩
        · rw [ihs]
          simp
        · rw [ihl]
          simp [List.length_map]
          omega
        · intro hnd
          apply ihn
          simp only [List.map_cons, List.map_nil]
          have hnotin : key ∉ st.events.map Prod.fst := by
            intro hc
            rw [(dictMem_iff st.events key).2 hc] at hfresh'
            exact absurd hfresh' (by simp)
          simp [List.nodup_append, hnd, hnotin]
        · rw [← h1]
          simp only [List.map_cons]
          rw [iho]

mutual

theorem to_dict_spec {β : Type} (keys : Nat → String) :
    ∀ (n : Node β) (st : SerSt (Attr β)) w st',
      to_dict keys n st = Except.ok (w, st') →
      st'.events.map Prod.snd =
        st.events.map Prod.snd ++ boundCallbacks n ∧
      st'.events.length = st.events.length + eventCount n ∧
      ((st.events.map Prod.fst).Nodup → (st'.events.map Prod.fst).Nodup)
  | Node.text s, st, w, st', h => by
    rw [to_dict] at h
    simp only [Except.ok.injEq, Prod.mk.injEq] at h
    obtain ⟨_, hst⟩ := h
    subst hst
    simp [boundCallbacks, eventCount]
  | Node.num i, st, w, st', h => by
    rw [to_dict] at h
    simp only [Except.ok.injEq, Prod.mk.injEq] at h
    obtain ⟨_, hst⟩ := h
    subst hst
    simp [boundCallbacks, eventCount]
  | Node.elem tag attrs cs, st, w, st', h => by
    rw [to_dict] at h
    cases hm : mintEvents keys (to_html_events attrs) st with
    | error e =>
      rw [hm] at h
      exact absurd h (by simp)
    | ok pr =>
      obtain ⟨onT, st1⟩ := pr
      rw [hm] at h
      dsimp only at h
      cases hc : to_dict_children keys cs st1 with
      | error e =>
        rw [hc] at h
        exact absurd h (by simp)
      | ok pr2 =>
        obtain ⟨ws, st2⟩ := pr2
        rw [hc] at h
        dsimp only at h
        simp only [Except.ok.injEq, Prod.mk.injEq] at h
        obtain ⟨hw, hst⟩ := h
        subst hst
        obtain ⟨m1, l1, n1, _⟩ := mintEvents_spec keys _ _ _ _ hm
        obtain ⟨m2, l2, n2⟩ := to_dict_children_spec keys cs _ _ _ hc
        refine ⟨?_, ?_, ?_⟩
        · rw [m2, m1, to_html_events_map_snd]
          simp [boundCallbacks, List.append_assoc]
        · rw [l2, l1, to_html_events_length]
          simp only [eventCount]
          omega
        · intro hnd
          exact n2 (n1 hnd)

theorem to_dict_children_spec {β : Type} (keys : Nat → String) :
    ∀ (cs : List (Node β)) (st : SerSt (Attr β)) ws st',
      to_dict_children keys cs st = Except.ok (ws, st') →
      st'.events.map Prod.snd =
        st.events.map Prod.snd ++ boundCallbacksList cs ∧
      st'.events.length = st.events.length + eventCountList cs ∧
      ((st.events.map Prod.fst).Nodup → (st'.events.map Prod.fst).Nodup)
  | [], st, ws, st', h => by
    rw [to_dict_children] at h
    simp only [Except.ok.injEq, Prod.mk.injEq] at h
    obtain ⟨_, hst⟩ := h
    subst hst
    simp [boundCallbacksList, eventCountList]
  | c :: cs, st, ws, st', h => by
    rw [to_dict_children] at h
    cases h1 : to_dict keys c st with
    | error e =>
      rw [h1] at h
      exact absurd h (by simp)
    | ok pr =>
      obtain ⟨w1, st1⟩ := pr
      rw [h1] at h
      dsimp only at h
      cases h2 : to_dict_children keys cs st1 with
      | error e =>
        rw [h2] at h
        exact absurd h (by simp)
      | ok pr2 =>
        obtain ⟨ws2, st2⟩ := pr2
        rw [h2] at h
        dsimp only at h
        simp only [Except.ok.injEq, Prod.mk.injEq] at h
        obtain ⟨hw, hst⟩ := h
        subst hst
        obtain ⟨m1, l1, n1⟩ := to_dict_spec keys c _ _ _ h1
        obtain ⟨m2, l2, n2⟩ := to_dict_children_spec keys cs _ _ _ h2
        refine ⟨?_, ?_, ?_⟩
        · rw [m2, m1]
          simp [boundCallbacksList, List.append_assoc]
        · rw [l2, l1]
          simp only [eventCountList]
          omega
        · intro hnd
          exact n2 (n1 hnd)

end

end SerializerLemmas


/-- A concrete injective draw stream used by the witnesses: the n-th
draw is the decimal numeral of n. -/
def keysF : Nat → String := fun n => toString n

/-- Modelled from the claim for comparison with the source's
`generate_unique_key`: a generator that, on a collision with the
accumulating table, draws again and retries while the budget lasts,
raising the fatal capacity error only once the budget is exhausted
(the claim's budget is 1 initial attempt + 255 retries). -/
def generate_unique_key_claim {β : Type} (keys : Nat → String)
    (cursor : Nat) (dictionary : Dict β) : Nat → Except String String
  | 0 => Except.error "Seems like the dictionary is full"
  | Nat.succ budget =>
    if dictMem dictionary (keys cursor) then
      generate_unique_key_claim keys (cursor + 1) dictionary budget
    else Except.ok (keys cursor)

/-- C2 counterexample: on a table already holding the drawn token, the
source's `generate_unique_key` raises the capacity error at its very
first collision, while the generator described by the claim (retry up
to 255 times) would simply draw again and succeed. -/
theorem generate_unique_key_retry_refuted :
    generate_unique_key (keysF 0) ([("0", Attr.cb 7)] : Dict (Attr Nat)) =
      Except.error "Seems like the dictionary is full" ∧
    generate_unique_key_claim keysF 0
      ([("0", Attr.cb 7)] : Dict (Attr Nat)) 256 = Except.ok "1" := by
  constructor
  · rfl
  · rfl

/-- C2 amended: `generate_unique_key` draws a single token, checks it
against the accumulating table, returns it when absent, and raises the
fatal capacity error immediately on the first collision — there is no
retry loop and no bound of 255 in the code. -/
theorem generate_unique_key_no_retry {β : Type} (draw : String)
    (d : Dict β) (v : β) :
    ((draw, v) ∈ d →
      generate_unique_key draw d =
        Except.error "Seems like the dictionary is full") ∧
    ((∀ w, (draw, w) ∉ d) → generate_unique_key draw d = Except.ok draw) := by
  constructor
  · intro hmem
    have h : dictMem d draw = true := by
      rw [dictMem_iff]
      exact List.mem_map.2 ⟨(draw, v), hmem, rfl⟩
    unfold generate_unique_key
    rw [if_pos h]
  · intro hnone
    have h : dictMem d draw = false := by
      cases hm : dictMem d draw
      · rfl
      · exfalso
        obtain ⟨p, hp, he⟩ := List.mem_map.1 ((dictMem_iff d draw).1 hm)
        obtain ⟨pk, pv⟩ := p
        simp only at he
        subst he
        exact hnone pv hp
    unfold generate_unique_key
    rw [if_neg (by simp [h])]

/-- C2 witness for the amended theorem at concrete inputs. -/
theorem generate_unique_key_no_retry_witness :
    (("t0", Attr.cb 3) ∈ ([("t0", Attr.cb 3)] : Dict (Attr Nat)) →
      generate_unique_key "t0" ([("t0", Attr.cb 3)] : Dict (Attr Nat)) =
        Except.error "Seems like the dictionary is full") ∧
    ((∀ w, ("t0", w) ∉ ([("t0", Attr.cb 3)] : Dict (Attr Nat))) →
      generate_unique_key "t0" ([("t0", Attr.cb 3)] : Dict (Attr Nat)) =
        Except.ok "t0") :=
  generate_unique_key_no_retry "t0" [("t0", Attr.cb 3)] (Attr.cb 3)

/-- C3: when `serialize` succeeds, the returned event table has exactly
as many entries as the tree has `on_*`-prefixed attributes (counted
across all nodes), its keys are pairwise distinct, and its values are
exactly the bound callback values in traversal order. -/
theorem serialize_event_table_exact {β : Type} (keys : Nat → String)
    (node : Node β) (w : Wire β) (events : Dict (Attr β))
    (h : serialize keys node = Except.ok (w, events)) :
    events.length = eventCount node ∧
    (events.map Prod.fst).Nodup ∧
    events.map Prod.snd = boundCallbacks node := by
  unfold serialize at h
  cases ht : to_dict keys node ⟨[], 0⟩ with
  | error e =>
    rw [ht] at h
    exact absurd h (by simp)
  | ok pr =>
    obtain ⟨w1, st⟩ := pr
    rw [ht] at h
    simp only [Except.ok.injEq, Prod.mk.injEq] at h
    obtain ⟨hw, he⟩ := h
    subst he
    obtain ⟨m, l, n⟩ := to_dict_spec keys node _ _ _ ht
    exact ⟨by simpa using l, n (by simp), by simpa using m⟩

/-- Concrete tree for the C3 witness: two `on_*` attributes across two
nodes. -/
def nodeC3 : Node Nat :=
  Node.elem "div" [("on_click", Attr.cb 1), ("id", Attr.str "x")]
    [Node.elem "button" [("on_submit", Attr.cb 2)] [Node.text "hi"]]

/-- C3 witness: the theorem applied to `nodeC3` with its concrete
serialization. -/
theorem serialize_event_table_exact_witness :
    ([("0", Attr.cb 1), ("1", Attr.cb 2)] : Dict (Attr Nat)).length =
      eventCount nodeC3 ∧
    (([("0", Attr.cb 1), ("1", Attr.cb 2)] :
      Dict (Attr Nat)).map Prod.fst).Nodup ∧
    ([("0", Attr.cb 1), ("1", Attr.cb 2)] :
      Dict (Attr Nat)).map Prod.snd = boundCallbacks nodeC3 :=
  serialize_event_table_exact keysF nodeC3
    (Wire.elem "div" [("id", Attr.str "x")] [("click", "0")]
      [Wire.elem "button" [] [("submit", "1")] [Wire.text "hi"]])
    [("0", Attr.cb 1), ("1", Attr.cb 2)] (by rfl)


/-- No key of a `to_html_attributes` output starts with `on_`: the
`on_*` branch drops such keys, and the two renamings produce `class`
and `for`. -/
theorem startswith_on_class : startswith_on "class" = false := rfl

theorem startswith_on_for : startswith_on "for" = false := rfl

theorem to_html_attributes_no_on {β : Type} (attrs : Dict (Attr β)) :
    (to_html_attributes attrs).all (fun p => !(startswith_on p.1)) =
      true := by
  induction attrs with
  | nil => rfl
  | cons p rest ih =>
    unfold to_html_attributes at *
    rw [List.filterMap_cons]
    cases hp : startswith_on p.1
    · by_cases hc : p.1 = "Class"
      · simp [hp, hc, List.all_cons, ih, startswith_on_class]
      · by_cases hf : p.1 = "For"
        · simp [hp, hc, hf, List.all_cons, ih, startswith_on_for]
        · simp [hp, hc, hf, List.all_cons, ih]
    · simp [hp, ih]

/-- Membership facts about `to_html_attributes`: `Class` is renamed to
`class`, `For` to `for`, and any other non-event key passes through
with its value. -/
theorem to_html_attributes_mem {β : Type} (attrs : Dict (Attr β))
    (k : String) (v : Attr β) (hmem : (k, v) ∈ attrs) :
    (k = "Class" → ("class", v) ∈ to_html_attributes attrs) ∧
    (k = "For" → ("for", v) ∈ to_html_attributes attrs) ∧
    (startswith_on k = false → k ≠ "Class" → k ≠ "For" →
      (k, v) ∈ to_html_attributes attrs) := by
  refine ⟨?_, ?_, ?_⟩
  · intro hk
    subst hk
    exact List.mem_filterMap.2 ⟨("Class", v), hmem, by rfl⟩
  · intro hk
    subst hk
    exact List.mem_filterMap.2 ⟨("For", v), hmem, by rfl⟩
  · intro h1 h2 h3
    refine List.mem_filterMap.2 ⟨(k, v), hmem, ?_⟩
    simp only [h1, Bool.false_eq_true, if_false, if_neg h2, if_neg h3]

mutual

/-- Every wire node produced by `to_dict` has an attribute dict free of
`on_*` keys. -/
theorem to_dict_noOn {β : Type} (keys : Nat → String) :
    ∀ (n : Node β) (st : SerSt (Attr β)) w st',
      to_dict keys n st = Except.ok (w, st') → wireNoOn w = true
  | Node.text s, st, w, st', h => by
    rw [to_dict] at h
    simp only [Except.ok.injEq, Prod.mk.injEq] at h
    rw [← h.1]
    rfl
  | Node.num i, st, w, st', h => by
    rw [to_dict] at h
    simp only [Except.ok.injEq, Prod.mk.injEq] at h
    rw [← h.1]
    rfl
  | Node.elem tag attrs cs, st, w, st', h => by
    rw [to_dict] at h
    cases hm : mintEvents keys (to_html_events attrs) st with
    | error e =>
      rw [hm] at h
      exact absurd h (by simp)
    | ok pr =>
      obtain ⟨onT, st1⟩ := pr
      rw [hm] at h
      dsimp only at h
      cases hc : to_dict_children keys cs st1 with
      | error e =>
        rw [hc] at h
        exact absurd h (by simp)
      | ok pr2 =>
        obtain ⟨ws, st2⟩ := pr2
        rw [hc] at h
        dsimp only at h
        simp only [Except.ok.injEq, Prod.mk.injEq] at h
        rw [← h.1]
        unfold wireNoOn
        rw [to_html_attributes_no_on attrs,
          to_dict_children_noOn keys cs _ _ _ hc]
        rfl

/-- List version of `to_dict_noOn`. -/
theorem to_dict_children_noOn {β : Type} (keys : Nat → String) :
    ∀ (cs : List (Node β)) (st : SerSt (Attr β)) ws st',
      to_dict_children keys cs st = Except.ok (ws, st') →
      wireNoOnList ws = true
  | [], st, ws, st', h => by
    rw [to_dict_children] at h
    simp only [Except.ok.injEq, Prod.mk.injEq] at h
    rw [← h.1]
    rfl
  | c :: cs, st, ws, st', h => by
    rw [to_dict_children] at h
    cases h1 : to_dict keys c st with
    | error e =>
      rw [h1] at h
      exact absurd h (by simp)
    | ok pr =>
      obtain ⟨w1, st1⟩ := pr
      rw [h1] at h
      dsimp only at h
      cases h2 : to_dict_children keys cs st1 with
      | error e =>
        rw [h2] at h
        exact absurd h (by simp)
      | ok pr2 =>
        obtain ⟨ws2, st2⟩ := pr2
        rw [h2] at h
        dsimp only at h
        simp only [Except.ok.injEq, Prod.mk.injEq] at h
        rw [← h.1]
        unfold wireNoOnList
        rw [to_dict_noOn keys c _ _ _ h1,
          to_dict_children_noOn keys cs _ _ _ h2]
        rfl

end

/-- C4: in a serialized wire tree no node's attribute dict holds a key
starting with `on_`; and `to_html_attributes` (which produces every
node's wire attribute dict) renames `Class` to `class` and `For` to
`for` and passes every other non-event attribute through unchanged. -/
theorem serialize_wire_attributes_clean {β : Type} (keys : Nat → String)
    (node : Node β) (w : Wire β) (ev : Dict (Attr β))
    (h : serialize keys node = Except.ok (w, ev)) :
    wireNoOn w = true ∧
    (∀ (attrs : Dict (Attr β)) (k : String) (v : Attr β),
      (k, v) ∈ attrs →
      (k = "Class" → ("class", v) ∈ to_html_attributes attrs) ∧
      (k = "For" → ("for", v) ∈ to_html_attributes attrs) ∧
      (startswith_on k = false → k ≠ "Class" → k ≠ "For" →
        (k, v) ∈ to_html_attributes attrs)) := by
  constructor
  · unfold serialize at h
    cases ht : to_dict keys node ⟨[], 0⟩ with
    | error e =>
      rw [ht] at h
      exact absurd h (by simp)
    | ok pr =>
      obtain ⟨w1, st⟩ := pr
      rw [ht] at h
      simp only [Except.ok.injEq, Prod.mk.injEq] at h
      rw [← h.1]
      exact to_dict_noOn keys node _ _ _ ht
  · intro attrs k v hmem
    exact to_html_attributes_mem attrs k v hmem

/-- Concrete tree for the C4 witness: one event attribute plus `Class`,
`For` and a plain attribute. -/
def nodeC4 : Node Nat :=
  Node.elem "label"
    [("Class", Attr.str "big"), ("For", Attr.str "f1"),
     ("title", Attr.str "t"), ("on_click", Attr.cb 9)]
    [Node.text "go"]

/-- C4 witness: the theorem applied to `nodeC4` and its concrete
serialization. -/
theorem serialize_wire_attributes_clean_witness :
    wireNoOn (Wire.elem "label"
      [("class", Attr.str "big"), ("for", Attr.str "f1"),
       ("title", Attr.str "t")] [("click", "0")]
      [Wire.text "go"] : Wire Nat) = true ∧
    (∀ (attrs : Dict (Attr Nat)) (k : String) (v : Attr Nat),
      (k, v) ∈ attrs →
      (k = "Class" → ("class", v) ∈ to_html_attributes attrs) ∧
      (k = "For" → ("for", v) ∈ to_html_attributes attrs) ∧
      (startswith_on k = false → k ≠ "Class" → k ≠ "For" →
        (k, v) ∈ to_html_attributes attrs)) :=
  serialize_wire_attributes_clean keysF nodeC4
    (Wire.elem "label"
      [("class", Attr.str "big"), ("for", Attr.str "f1"),
       ("title", Attr.str "t")] [("click", "0")]
      [Wire.text "go"] : Wire Nat)
    [("0", Attr.cb 9)] (by rfl)


mutual

/-- Two successful runs of `to_dict` on the same node, with different
draw streams and from different states, produce wire trees of the same
shape. -/
theorem to_dict_sameShape {β : Type} [DecidableEq β]
    (keys1 keys2 : Nat → String) :
    ∀ (n : Node β) (st1 st2 : SerSt (Attr β)) w1 w2 st1' st2',
      to_dict keys1 n st1 = Except.ok (w1, st1') →
      to_dict keys2 n st2 = Except.ok (w2, st2') →
      sameShape w1 w2 = true
  | Node.text s, st1, st2, w1, w2, st1', st2', h1, h2 => by
    rw [to_dict] at h1 h2
    simp only [Except.ok.injEq, Prod.mk.injEq] at h1 h2
    rw [← h1.1, ← h2.1]
    simp [sameShape]
  | Node.num i, st1, st2, w1, w2, st1', st2', h1, h2 => by
    rw [to_dict] at h1 h2
    simp only [Except.ok.injEq, Prod.mk.injEq] at h1 h2
    rw [← h1.1, ← h2.1]
    simp [sameShape]
  | Node.elem tag attrs cs, st1, st2, w1, w2, st1', st2', h1, h2 => by
    rw [to_dict] at h1 h2
    cases hm1 : mintEvents keys1 (to_html_events attrs) st1 with
    | error e =>
      rw [hm1] at h1
      exact absurd h1 (by simp)
    | ok pr1 =>
      obtain ⟨onT1, stA1⟩ := pr1
      rw [hm1] at h1
      dsimp only at h1
      cases hm2 : mintEvents keys2 (to_html_events attrs) st2 with
      | error e =>
        rw [hm2] at h2
        exact absurd h2 (by simp)
      | ok pr2 =>
        obtain ⟨onT2, stA2⟩ := pr2
        rw [hm2] at h2
        dsimp only at h2
        cases hc1 : to_dict_children keys1 cs stA1 with
        | error e =>
          rw [hc1] at h1
          exact absurd h1 (by simp)
        | ok prc1 =>
          obtain ⟨ws1, stB1⟩ := prc1
          rw [hc1] at h1
          dsimp only at h1
          cases hc2 : to_dict_children keys2 cs stA2 with
          | error e =>
            rw [hc2] at h2
            exact absurd h2 (by simp)
          | ok prc2 =>
            obtain ⟨ws2, stB2⟩ := prc2
            rw [hc2] at h2
            dsimp only at h2
            simp only [Except.ok.injEq, Prod.mk.injEq] at h1 h2
            rw [← h1.1, ← h2.1]
            obtain ⟨_, _, _, ho1⟩ := mintEvents_spec keys1 _ _ _ _ hm1
            obtain ⟨_, _, _, ho2⟩ := mintEvents_spec keys2 _ _ _ _ hm2
            unfold sameShape
            rw [ho1, ho2,
              to_dict_children_sameShapeList keys1 keys2 cs _ _ _ _ _ _
                hc1 hc2]
            simp

/-- List version of `to_dict_sameShape`. -/
theorem to_dict_children_sameShapeList {β : Type} [DecidableEq β]
    (keys1 keys2 : Nat → String) :
    ∀ (cs : List (Node β)) (st1 st2 : SerSt (Attr β)) ws1 ws2 st1' st2',
      to_dict_children keys1 cs st1 = Except.ok (ws1, st1') →
      to_dict_children keys2 cs st2 = Except.ok (ws2, st2') →
      sameShapeList ws1 ws2 = true
  | [], st1, st2, ws1, ws2, st1', st2', h1, h2 => by
    rw [to_dict_children] at h1 h2
    simp only [Except.ok.injEq, Prod.mk.injEq] at h1 h2
    rw [← h1.1, ← h2.1]
    rfl
  | c :: cs, st1, st2, ws1, ws2, st1', st2', h1, h2 => by
    rw [to_dict_children] at h1 h2
    cases ha1 : to_dict keys1 c st1 with
    | error e =>
      rw [ha1] at h1
      exact absurd h1 (by simp)
    | ok pr1 =>
      obtain ⟨w1, stA1⟩ := pr1
      rw [ha1] at h1
      dsimp only at h1
      cases ha2 : to_dict keys2 c st2 with
      | error e =>
        rw [ha2] at h2
        exact absurd h2 (by simp)
      | ok pr2 =>
        obtain ⟨w2, stA2⟩ := pr2
        rw [ha2] at h2
        dsimp only at h2
        cases hb1 : to_dict_children keys1 cs stA1 with
        | error e =>
          rw [hb1] at h1
          exact absurd h1 (by simp)
        | ok prc1 =>
          obtain ⟨wsB1, stB1⟩ := prc1
          rw [hb1] at h1
          dsimp only at h1
          cases hb2 : to_dict_children keys2 cs stA2 with
          | error e =>
            rw [hb2] at h2
            exact absurd h2 (by simp)
          | ok prc2 =>
            obtain ⟨wsB2, stB2⟩ := prc2
            rw [hb2] at h2
            dsimp only at h2
            simp only [Except.ok.injEq, Prod.mk.injEq] at h1 h2
            rw [← h1.1, ← h2.1]
            unfold sameShapeList
            rw [to_dict_sameShape keys1 keys2 c _ _ _ _ _ _ ha1 ha2,
              to_dict_children_sameShapeList keys1 keys2 cs _ _ _ _ _ _
                hb1 hb2]
            rfl

end

/-- C8: two successful serializations of the same fixed tree give wire
trees identical in structure — the same tags, attribute dicts and
children shape everywhere — with only the minted event-key tokens free
to differ. -/
theorem serialize_deterministic_structure {β : Type} [DecidableEq β]
    (keys1 keys2 : Nat → String) (node : Node β) (w1 w2 : Wire β)
    (ev1 ev2 : Dict (Attr β))
    (h1 : serialize keys1 node = Except.ok (w1, ev1))
    (h2 : serialize keys2 node = Except.ok (w2, ev2)) :
    sameShape w1 w2 = true := by
  unfold serialize at h1 h2
  cases ht1 : to_dict keys1 node ⟨[], 0⟩ with
  | error e =>
    rw [ht1] at h1
    exact absurd h1 (by simp)
  | ok pr1 =>
    obtain ⟨wA, stA⟩ := pr1
    rw [ht1] at h1
    simp only [Except.ok.injEq, Prod.mk.injEq] at h1
    cases ht2 : to_dict keys2 node ⟨[], 0⟩ with
    | error e =>
      rw [ht2] at h2
      exact absurd h2 (by simp)
    | ok pr2 =>
      obtain ⟨wB, stB⟩ := pr2
      rw [ht2] at h2
      simp only [Except.ok.injEq, Prod.mk.injEq] at h2
      rw [← h1.1, ← h2.1]
      exact to_dict_sameShape keys1 keys2 node _ _ _ _ _ _ ht1 ht2

/-- A second concrete draw stream, disjoint from `keysF`. -/
def keysG : Nat → String := fun n => "A" ++ toString n

/-- C8 witness: the theorem applied to `nodeC3` under the two streams
`keysF` and `keysG`, which mint different tokens. -/
theorem serialize_deterministic_structure_witness :
    sameShape
      (Wire.elem "div" [("id", Attr.str "x")] [("click", "0")]
        [Wire.elem "button" [] [("submit", "1")]
          [Wire.text "hi"]] : Wire Nat)
      (Wire.elem "div" [("id", Attr.str "x")] [("click", "A0")]
        [Wire.elem "button" [] [("submit", "A1")]
          [Wire.text "hi"]] : Wire Nat) = true :=
  serialize_deterministic_structure keysF keysG nodeC3
    (Wire.elem "div" [("id", Attr.str "x")] [("click", "0")]
      [Wire.elem "button" [] [("submit", "1")] [Wire.text "hi"]])
    (Wire.elem "div" [("id", Attr.str "x")] [("click", "A0")]
      [Wire.elem "button" [] [("submit", "A1")] [Wire.text "hi"]])
    [("0", Attr.cb 1), ("1", Attr.cb 2)]
    [("A0", Attr.cb 1), ("A1", Attr.cb 2)] (by rfl) (by rfl)


/-- Lookup of a key that is neither `on_*`-prefixed nor any of
`Class`/`For`/`class`/`for` is unchanged by `to_html_attributes`. -/
theorem dictGet_to_html_attributes {β : Type} (d : Dict (Attr β))
    (k : String) (h1 : startswith_on k = false) (h2 : k ≠ "Class")
    (h3 : k ≠ "For") (h4 : k ≠ "class") (h5 : k ≠ "for") :
    dictGet (to_html_attributes d) k = dictGet d k := by
  induction d with
  | nil => rfl
  | cons p rest ih =>
    unfold to_html_attributes at *
    rw [List.filterMap_cons]
    cases hp : startswith_on p.1
    · by_cases hc : p.1 = "Class"
      · rw [if_neg (by simp [hp]), if_pos hc, dictGet_cons, dictGet_cons]
        rw [if_neg (by simpa using fun he => h4 he.symm),
          if_neg (by rw [hc]; exact fun he => h2 he.symm)]
        exact ih
      · by_cases hf : p.1 = "For"
        · rw [if_neg (by simp [hp]), if_neg hc, if_pos hf, dictGet_cons,
            dictGet_cons]
          rw [if_neg (by simpa using fun he => h5 he.symm),
            if_neg (by rw [hf]; exact fun he => h3 he.symm)]
          exact ih
        · rw [if_neg (by simp [hp]), if_neg hc, if_neg hf, dictGet_cons,
            dictGet_cons]
          by_cases hpk : p.1 = k
          · rw [if_pos hpk, if_pos hpk]
          · rw [if_neg hpk, if_neg hpk]
            exact ih
    · rw [if_pos (by simp [hp]), dictGet_cons]
      have hpk : ¬ (p.1 = k) := by
        intro he
        rw [he] at hp
        rw [hp] at h1
        exact absurd h1 (by simp)
      rw [if_neg hpk]
      exact ih

/-- C9: every `h.form(**kwargs)` node carries the plain attribute
`onsubmit = 'return false;'` injected before the caller's kwargs are
merged: when the caller did not pass `onsubmit` the attribute is
present on the node and survives into the wire attributes of the
serialized form, and when the caller did pass an `onsubmit` value their
value wins. -/
theorem form_onsubmit_injected {β : Type} (kwargs : Dict (Attr β))
    (keys : Nat → String) (w : Wire β) (ev : Dict (Attr β)) :
    (dictMem kwargs "onsubmit" = false →
      dictGet (PythonHTML.form kwargs : Node β).attrs "onsubmit" =
        some (Attr.str "return false;")) ∧
    (dictMem kwargs "onsubmit" = false →
      serialize keys (PythonHTML.form kwargs : Node β) =
        Except.ok (w, ev) →
      dictGet w.attrs "onsubmit" = some (Attr.str "return false;")) ∧
    (∀ v : Attr β, (kwargs.map Prod.fst).Nodup →
      dictGet kwargs "onsubmit" = some v →
      dictGet (PythonHTML.form kwargs : Node β).attrs "onsubmit" =
        some v) := by
  have hbase : ∀ hk : dictMem kwargs "onsubmit" = false,
      dictGet (PythonHTML.form kwargs : Node β).attrs "onsubmit" =
        some (Attr.str "return false;") := by
    intro hk
    show dictGet (dictUpdate (dictInsert [] "onsubmit"
      (Attr.str "return false;")) kwargs) "onsubmit" =
        some (Attr.str "return false;")
    rw [dictGet_dictUpdate_not_mem _ _ _ hk]
    rfl
  refine ⟨hbase, ?_, ?_⟩
  · intro hk hser
    unfold serialize at hser
    cases ht : to_dict keys (PythonHTML.form kwargs : Node β)
        ⟨[], 0⟩ with
    | error e =>
      rw [ht] at hser
      exact absurd hser (by simp)
    | ok pr =>
      obtain ⟨wA, stA⟩ := pr
      rw [ht] at hser
      simp only [Except.ok.injEq, Prod.mk.injEq] at hser
      rw [← hser.1]
      have hform : (PythonHTML.form kwargs : Node β) =
          Node.elem "form" (dictUpdate (dictInsert [] "onsubmit"
            (Attr.str "return false;")) kwargs) [] := rfl
      rw [hform, to_dict] at ht
      cases hm : mintEvents keys
          (to_html_events (dictUpdate (dictInsert [] "onsubmit"
            (Attr.str "return false;")) kwargs)) ⟨[], 0⟩ with
      | error e =>
        rw [hm] at ht
        exact absurd ht (by simp)
      | ok prm =>
        obtain ⟨onT, stM⟩ := prm
        rw [hm] at ht
        dsimp only at ht
        rw [to_dict_children] at ht
        simp only [Except.ok.injEq, Prod.mk.injEq] at ht
        rw [← ht.1]
        show dictGet (to_html_attributes (dictUpdate (dictInsert []
          "onsubmit" (Attr.str "return false;")) kwargs)) "onsubmit" =
            some (Attr.str "return false;")
        rw [dictGet_to_html_attributes _ _ (by rfl) (by decide)
          (by decide) (by decide) (by decide)]
        rw [dictGet_dictUpdate_not_mem _ _ _ hk]
        rfl
  · intro v hnd hv
    show dictGet (dictUpdate (dictInsert [] "onsubmit"
      (Attr.str "return false;")) kwargs) "onsubmit" = some v
    exact dictGet_dictUpdate_mem _ _ _ _ hnd hv

/-- C9 witness: the theorem applied once with kwargs not containing
`onsubmit` and once (third part) with an overriding `onsubmit`. -/
theorem form_onsubmit_injected_witness :
    (dictGet (PythonHTML.form
        ([("action", Attr.str "/x")] : Dict (Attr Nat)) :
        Node Nat).attrs "onsubmit" =
      some (Attr.str "return false;")) ∧
    (dictGet (Wire.elem "form"
        [("onsubmit", Attr.str "return false;"),
         ("action", Attr.str "/x")] [] [] : Wire Nat).attrs
        "onsubmit" = some (Attr.str "return false;")) ∧
    (dictGet (PythonHTML.form
        ([("onsubmit", Attr.str "custom")] : Dict (Attr Nat)) :
        Node Nat).attrs "onsubmit" = some (Attr.str "custom")) := by
  refine ⟨?_, ?_, ?_⟩
  · exact (form_onsubmit_injected [("action", Attr.str "/x")] keysF
      (Wire.elem "form" [("onsubmit", Attr.str "return false;"),
        ("action", Attr.str "/x")] [] []) []).1 (by rfl)
  · exact (form_onsubmit_injected [("action", Attr.str "/x")] keysF
      (Wire.elem "form" [("onsubmit", Attr.str "return false;"),
        ("action", Attr.str "/x")] [] []) []).2.1 (by rfl) (by rfl)
  · exact (form_onsubmit_injected [("onsubmit", Attr.str "custom")]
      keysF (Wire.elem "form" [("onsubmit", Attr.str "custom")] [] [])
      []).2.2 (Attr.str "custom") (by simp) (by rfl)


/-- C5: `Router.__call__` iterates registered routes in registration
order and uses only the first whose pattern matches the event's path
(an earlier-registered match shadows any later one); with no matching
pattern it returns the default not-found view `h.h1()['No route found']`
instead of raising. -/
theorem router_first_match_and_default {α : Type} (ev : EventData)
    (m : α) :
    (∀ (l1 l2 : List (Route α)) (r : Route α) (args : List String),
      (∀ r' ∈ l1, r'.pattern ev.path = none) →
      r.pattern ev.path = some args →
      routerCall (l1 ++ r :: l2) ev m =
        (if ev.type = "init" then r.init args ev m else m,
         r.render args ev
           (if ev.type = "init" then r.init args ev m else m))) ∧
    (∀ routes : List (Route α),
      (∀ r' ∈ routes, r'.pattern ev.path = none) →
      routerCall routes ev m =
        (m, Node.elem "h1" [] [Node.text "No route found"])) := by
  constructor
  · intro l1 l2 r args hnone hmatch
    induction l1 with
    | nil =>
      rw [List.nil_append, routerCall, hmatch]
    | cons r0 rest ih =>
      rw [List.cons_append, routerCall,
        hnone r0 (List.mem_cons_self r0 rest)]
      exact ih (fun r' hr' => hnone r' (List.mem_cons_of_mem r0 hr'))
  · intro routes hnone
    induction routes with
    | nil => rfl
    | cons r0 rest ih =>
      rw [routerCall, hnone r0 (List.mem_cons_self r0 rest)]
      exact ih (fun r' hr' => hnone r' (List.mem_cons_of_mem r0 hr'))

/-- A route matching only `/`, used by the C5 witness. -/
def routeA : Route Nat :=
  ⟨fun p => if p = "/" then some [] else none,
   fun _ _ m => m + 1, fun _ _ _ => Node.text "A"⟩

/-- A second route whose pattern overlaps `routeA`, registered later. -/
def routeB : Route Nat :=
  ⟨fun p => if p = "/" then some [] else none,
   fun _ _ m => m + 10, fun _ _ _ => Node.text "B"⟩

/-- A route matching nothing. -/
def routeN : Route Nat :=
  ⟨fun _ => none, fun _ _ m => m + 100, fun _ _ _ => Node.text "N"⟩

/-- C5 witness: with overlapping `routeA`/`routeB` the
earlier-registered `routeA` wins (its init runs, its render is used),
and with no match the not-found view comes back. -/
theorem router_first_match_and_default_witness :
    routerCall [routeN, routeA, routeB] ⟨"init", "/", []⟩ (0 : Nat) =
      (1, Node.text "A") ∧
    routerCall [routeN] ⟨"init", "/missing", []⟩ (0 : Nat) =
      (0, Node.elem "h1" [] [Node.text "No route found"]) := by
  constructor
  · exact (router_first_match_and_default ⟨"init", "/", []⟩ 0).1
      [routeN] [routeB] routeA []
      (by
        intro r' hr'
        simp only [List.mem_singleton] at hr'
        subst hr'
        rfl)
      (by rfl)
  · exact (router_first_match_and_default ⟨"init", "/missing", []⟩ 0).2
      [routeN]
      (by
        intro r' hr'
        simp only [List.mem_singleton] at hr'
        subst hr'
        rfl)

/-- C6: a `dom-event` whose key is absent from the session's current
event table makes the dispatch loop raise `KeyError` before any
callback is invoked: the step fails with the connection untouched — no
callback effect, no push, no table change — never a silent no-op. -/
theorem dispatch_miss_errors {α : Type} (keys : Nat → String)
    (routes : List (Route α)) (path key : String)
    (payload : Dict String) (c : Conn α)
    (h : dictGet c.events key = none) :
    handleMessage keys routes (ClientMsg.domEvent path key payload) c =
      Except.error ("KeyError: " ++ key, c) := by
  unfold handleMessage
  dsimp only
  rw [h]

/-- C6 witness: a connection whose (empty) table misses the key. -/
theorem dispatch_miss_errors_witness :
    handleMessage keysF ([] : List (Route Nat))
      (ClientMsg.domEvent "/" "zz" []) ⟨0, [], [], 0⟩ =
      Except.error ("KeyError: " ++ "zz", ⟨0, [], [], 0⟩) :=
  dispatch_miss_errors keysF [] "/" "zz" [] ⟨0, [], [], 0⟩ (by rfl)

/-- C7: when the handler inside the `beyond` wrapper raises, the
exception propagates out of the wrapper (and out of the dispatch step
that invoked it) before any render or serialization: no update message
is pushed and the session's event table is unchanged (only the
application model keeps whatever the handler did before raising). -/
theorem beyond_handler_exception_propagates {α : Type}
    (keys : Nat → String) (routes : List (Route α)) (ev : EventData)
    (key : String) (c : Conn α) (h : HandlerFn α) (e : String) (m' : α)
    (hh : h ev c.model = Except.error (e, m')) :
    beyondWrapper keys routes h ev c =
      Except.error (e, ⟨m', c.events, c.sent, c.cursor⟩) ∧
    (ev.type = "dom-event" →
      dictGet c.events key = some (Attr.cb (Callback.wrapped h)) →
      handleMessage keys routes
        (ClientMsg.domEvent ev.path key ev.payload) c =
        Except.error (e, ⟨m', c.events, c.sent, c.cursor⟩)) := by
  have hwrap : beyondWrapper keys routes h ev c =
      Except.error (e, ⟨m', c.events, c.sent, c.cursor⟩) := by
    unfold beyondWrapper
    rw [hh]
  refine ⟨hwrap, ?_⟩
  intro hty hlook
  obtain ⟨t, p, pl⟩ := ev
  simp only at hty
  subst hty
  unfold handleMessage
  dsimp only
  rw [hlook]
  dsimp only
  unfold runCallback
  dsimp only
  rw [hwrap]

/-- Concrete always-raising handler for the C7 witness. -/
def handlerBoom : HandlerFn Nat := fun _ m => Except.error ("boom", m + 5)

/-- Connection holding `handlerBoom` wrapped, for the C7 witness. -/
def connBoom : Conn Nat :=
  ⟨0, [("k", Attr.cb (Callback.wrapped handlerBoom))], [], 0⟩

/-- C7 witness: the raising handler at a concrete connection. -/
theorem beyond_handler_exception_propagates_witness :
    beyondWrapper keysF ([] : List (Route Nat)) handlerBoom
      ⟨"dom-event", "/", []⟩ connBoom =
      Except.error ("boom", ⟨5, connBoom.events, [], 0⟩) ∧
    (EventData.type ⟨"dom-event", "/", []⟩ = "dom-event" →
      dictGet connBoom.events "k" =
        some (Attr.cb (Callback.wrapped handlerBoom)) →
      handleMessage keysF ([] : List (Route Nat))
        (ClientMsg.domEvent "/" "k" []) connBoom =
        Except.error ("boom", ⟨5, connBoom.events, [], 0⟩)) :=
  beyond_handler_exception_propagates keysF [] ⟨"dom-event", "/", []⟩
    "k" connBoom handlerBoom "boom" 5 (by rfl)


/-- For a non-`init` event the router never runs a route's `init`, so
the model comes back unchanged. -/
theorem routerCall_fst_non_init {α : Type} (routes : List (Route α))
    (ev : EventData) (m : α) (h : ev.type ≠ "init") :
    (routerCall routes ev m).1 = m := by
  induction routes with
  | nil => rfl
  | cons r rest ih =>
    rw [routerCall]
    cases hp : r.pattern ev.path with
    | none =>
      dsimp only
      exact ih
    | some args =>
      dsimp only
      rw [if_neg h]

/-- Always-succeeding identity handler for the C1 instances. -/
def handlerOk : HandlerFn Nat := fun _ m => Except.ok m

/-- Connection whose table binds key `k` to the `beyond`-wrapped
`handlerOk`. -/
def connW : Conn Nat :=
  ⟨0, [("k", Attr.cb (Callback.wrapped handlerOk))], [], 0⟩

/-- Connection whose table binds key `k` to the plain (unwrapped)
`handlerOk`. -/
def connP : Conn Nat :=
  ⟨0, [("k", Attr.cb (Callback.plain handlerOk))], [], 0⟩

/-- C1 counterexample: dispatching a `dom-event` to a decorator-wrapped
handler pushes TWO update messages (one from the wrapper, then one more
from the loop's unconditional re-render), not exactly one; and
dispatching to a plain handler still pushes one update, not zero. -/
theorem dom_event_single_push_refuted :
    (handleMessage keysF ([] : List (Route Nat))
        (ClientMsg.domEvent "/" "k" []) connW).map
      (fun c => c.sent.length) = Except.ok 2 ∧
    (handleMessage keysF ([] : List (Route Nat))
        (ClientMsg.domEvent "/" "k" []) connP).map
      (fun c => c.sent.length) = Except.ok 1 := by
  constructor
  · rfl
  · rfl

/-- C1 amended: on a `dom-event` whose key resolves in the current
table, a `beyond`-wrapped handler runs and the wrapper pushes one
update and replaces the event table, after which the dispatch loop
unconditionally renders again, pushes a second update and replaces the
table once more (two pushes total, final table from the last
serialization); a plain handler runs without the wrapper but the loop
still renders, replaces the table and pushes one update (no
handler-kind asymmetry: the re-render is unconditional). -/
theorem dom_event_dispatch_push_counts {α : Type} (keys : Nat → String)
    (routes : List (Route α)) (path key : String)
    (payload : Dict String) (c : Conn α) (h : HandlerFn α) :
    (∀ (m1 : α) w1 (st1 : SerSt (Attr (Callback α))) w2
        (st2 : SerSt (Attr (Callback α))),
      dictGet c.events key = some (Attr.cb (Callback.wrapped h)) →
      h ⟨"dom-event", path, payload⟩ c.model = Except.ok m1 →
      to_dict keys
        (routerCall routes ⟨"dom-event", path, payload⟩ m1).2
        ⟨[], c.cursor⟩ = Except.ok (w1, st1) →
      to_dict keys
        (routerCall routes ⟨"dom-event", path, payload⟩ m1).2
        ⟨[], st1.cursor⟩ = Except.ok (w2, st2) →
      handleMessage keys routes (ClientMsg.domEvent path key payload) c =
        Except.ok ⟨m1, st2.events, c.sent ++ [w1, w2], st2.cursor⟩) ∧
    (∀ (m1 : α) w1 (st1 : SerSt (Attr (Callback α))),
      dictGet c.events key = some (Attr.cb (Callback.plain h)) →
      h ⟨"dom-event", path, payload⟩ c.model = Except.ok m1 →
      to_dict keys
        (routerCall routes ⟨"dom-event", path, payload⟩ m1).2
        ⟨[], c.cursor⟩ = Except.ok (w1, st1) →
      handleMessage keys routes (ClientMsg.domEvent path key payload) c =
        Except.ok ⟨m1, st1.events, c.sent ++ [w1], st1.cursor⟩) := by
  have hfst : ∀ m1 : α,
      (routerCall routes ⟨"dom-event", path, payload⟩ m1).1 = m1 :=
    fun m1 => routerCall_fst_non_init routes _ m1 (by simp)
  constructor
  · intro m1 w1 st1 w2 st2 hlook hh h1 h2
    unfold handleMessage
    dsimp only
    rw [hlook]
    dsimp only
    unfold runCallback
    dsimp only
    unfold beyondWrapper
    rw [hh]
    dsimp only
    rw [h1]
    dsimp only
    rw [hfst m1, h2]
    dsimp only
    rw [hfst m1]
    simp

  · intro m1 w1 st1 hlook hh h1
    unfold handleMessage
    dsimp only
    rw [hlook]
    dsimp only
    unfold runCallback
    dsimp only
    rw [hh]
    dsimp only
    rw [h1]
    dsimp only
    rw [hfst m1]

/-- Wire form of the router's not-found view. -/
def wNF : Wire (Callback Nat) :=
  Wire.elem "h1" [] [] [Wire.text "No route found"]

/-- C1 witness: the amended theorem applied to the concrete wrapped and
plain connections (no routes registered, so every render yields the
not-found view, whose serialization always succeeds). -/
theorem dom_event_dispatch_push_counts_witness :
    handleMessage keysF ([] : List (Route Nat))
      (ClientMsg.domEvent "/" "k" []) connW =
      Except.ok ⟨0, [], [wNF, wNF], 0⟩ ∧
    handleMessage keysF ([] : List (Route Nat))
      (ClientMsg.domEvent "/" "k" []) connP =
      Except.ok ⟨0, [], [wNF], 0⟩ :=
  ⟨(dom_event_dispatch_push_counts keysF [] "/" "k" [] connW
      handlerOk).1 0 wNF ⟨[], 0⟩ wNF ⟨[], 0⟩ (by rfl) (by rfl) (by rfl)
      (by rfl),
   (dom_event_dispatch_push_counts keysF [] "/" "k" [] connP
      handlerOk).2 0 wNF ⟨[], 0⟩ (by rfl) (by rfl) (by rfl)⟩

/-- C10 (supporting evaluation): `h.input(type='text', id='myid')`
returns a node tagged `input#` + draw together with the warning flag,
but the `id` attribute is still merged into the node's attributes and
survives into the wire attributes — the code's own warning message
says the id is ignored, yet it is kept; a non-text input keeps the
plain `input` tag with no warning. -/
theorem input_text_id_kept_despite_warning :
    PythonHTML.input "d4f"
      ([("type", Attr.str "text"), ("id", Attr.str "myid")] :
        Dict (Attr Nat)) =
      (Node.elem "input#d4f"
        [("type", Attr.str "text"), ("id", Attr.str "myid")] [], true) ∧
    serialize keysF
      (Node.elem "input#d4f"
        [("type", Attr.str "text"), ("id", Attr.str "myid")] [] :
        Node Nat) =
      Except.ok (Wire.elem "input#d4f"
        [("type", Attr.str "text"), ("id", Attr.str "myid")] [] [],
        []) ∧
    PythonHTML.input "d4f"
      ([("type", Attr.str "submit")] : Dict (Attr Nat)) =
      (Node.elem "input" [("type", Attr.str "submit")] [], false) := by
  refine ⟨?_, ?_, ?_⟩
  · rfl
  · rfl
  · rfl

end Beyond
